import Mathlib

/-!
Verification of the KidsSavingsAccount accrual engine.

This file is a shallow embedding, in Lean 4, of the balance-accrual core of
the KidsSavingsAccount web application:

* the calendar / schedule module (`src/apps/web/src/domain/calc/schedule.ts`);
* the rounding module (`round.ts`);
* the balance calculator (`BalanceCalculator` in `domain/calc/BalanceCalculator.ts`)
  together with the aggregation helpers;
* the ledger service (`LedgerService.ts`) and the transfer service
  (`TransferService.ts`).

Modelling conventions:

* JavaScript `number` values holding epoch-milliseconds are modelled as `Int`;
  monetary values are modelled as `Rat` (JS numbers are used both for whole
  dollars and, potentially, fractional amounts).
* A JavaScript `Date` is modelled as its local civil fields
  (year / 0-based month / day-of-month / milliseconds within the day).
  Local time is modelled without DST, i.e. as a fixed offset of zero, so the
  epoch falls on a local midnight.  `Int` division `/` and `%` on `Int` are
  euclidean, which agrees with `Math.floor` division for positive divisors.
* `while (true)` loops of the source are modelled with an explicit fuel that
  is provably larger than the number of iterations the loop can perform on
  the inputs in question.
* Fallible operations (`throw new Error(...)`) are modelled with `Except String`;
  persistence (`AccountRepository`) is modelled as explicit state passing.
-/

deriving instance DecidableEq for Except

namespace KidsBank

/-! ## Calendar model (JavaScript `Date`, local time, no DST) -/

/-- Milliseconds per day (`CONSTANTS.MS_PER_DAY`). -/
def MS_PER_DAY : Int := 86400000

/-- Milliseconds per week (`CONSTANTS.MS_PER_WEEK`). -/
def MS_PER_WEEK : Int := 604800000

/-- A JavaScript `Date`, represented by its local civil fields.
`month` is 0-based (January = 0) exactly as in JavaScript. -/
structure JsDate where
  year : Int
  month : Int
  day : Int
  ms : Int
  deriving Repr, DecidableEq

/-- Gregorian leap-year rule, as observed by JavaScript `Date`. -/
def isLeapYear (y : Int) : Bool :=
  (y % 4 == 0 && y % 100 != 0) || y % 400 == 0

/-- Number of days in a (0-based) month of a given year. -/
def daysInMonth (y m : Int) : Int :=
  if m = 0 then 31
  else if m = 1 then (if isLeapYear y then 29 else 28)
  else if m = 2 then 31
  else if m = 3 then 30
  else if m = 4 then 31
  else if m = 5 then 30
  else if m = 6 then 31
  else if m = 7 then 31
  else if m = 8 then 30
  else if m = 9 then 31
  else if m = 10 then 30
  else 31

/-- Days in a year. -/
def daysInYear (y : Int) : Int := if isLeapYear y then 366 else 365

/-- Days since the epoch (1970-01-01) of a civil date, by the standard
closed formula over the March-based year.  This models `Date.getTime`'s
civil-to-instant direction. -/
def civilDays (y m d : Int) : Int :=
  let y2 := if m ≤ 1 then y - 1 else y
  let mp := if m ≤ 1 then m + 10 else m - 2
  365 * y2 + y2 / 4 - y2 / 100 + y2 / 400 + (153 * mp + 2) / 5 + d - 1 - 719468

/-- `Date.prototype.getTime`: epoch milliseconds of a date. -/
def JsDate.getTime (d : JsDate) : Int :=
  civilDays d.year d.month d.day * MS_PER_DAY + d.ms

/-- Year search for the instant-to-civil direction, moving forward from a
base year; returns the year together with the remaining day-of-year.
Fuel bounds the number of whole years that can be peeled off. -/
def findYearFwd : Nat → Int → Int → Int × Int
  | 0, y, days => (y, days)
  | fuel + 1, y, days =>
    if days < daysInYear y then (y, days)
    else findYearFwd fuel (y + 1) (days - daysInYear y)

/-- Year search moving backward from a base year (for pre-1970 instants). -/
def findYearBwd : Nat → Int → Int → Int × Int
  | 0, y, days => (y, days)
  | fuel + 1, y, days =>
    let y2 := y - 1
    let days2 := days + daysInYear y2
    if 0 ≤ days2 then (y2, days2) else findYearBwd fuel y2 days2

/-- Month search: locate the month of a day-of-year by the cumulative month
lengths (`31, 31 + feb, 62 + feb, ...` where `feb` is that year's February
length), returning the (0-based) month and the remaining (0-based) day. -/
def findMonth (y doy : Int) : Int × Int :=
  if doy < 31 then (0, doy)
  else if doy < 31 + daysInMonth y 1 then (1, doy - 31)
  else if doy < 62 + daysInMonth y 1 then (2, doy - (31 + daysInMonth y 1))
  else if doy < 92 + daysInMonth y 1 then (3, doy - (62 + daysInMonth y 1))
  else if doy < 123 + daysInMonth y 1 then (4, doy - (92 + daysInMonth y 1))
  else if doy < 153 + daysInMonth y 1 then (5, doy - (123 + daysInMonth y 1))
  else if doy < 184 + daysInMonth y 1 then (6, doy - (153 + daysInMonth y 1))
  else if doy < 215 + daysInMonth y 1 then (7, doy - (184 + daysInMonth y 1))
  else if doy < 245 + daysInMonth y 1 then (8, doy - (215 + daysInMonth y 1))
  else if doy < 276 + daysInMonth y 1 then (9, doy - (245 + daysInMonth y 1))
  else if doy < 306 + daysInMonth y 1 then (10, doy - (276 + daysInMonth y 1))
  else (11, doy - (306 + daysInMonth y 1))

/-- Civil date of a day number (days since 1970-01-01). -/
def civilFromDays (z : Int) : Int × Int × Int :=
  let yd :=
    if 0 ≤ z then findYearFwd (z.toNat / 365 + 1) 1970 z
    else findYearBwd ((-z).toNat / 365 + 1) 1970 z
  let md := findMonth yd.1 yd.2
  (yd.1, md.1, md.2 + 1)

/-- `new Date(ms)`: the civil fields of an epoch-millisecond instant. -/
def toDate (t : Int) : JsDate :=
  let z := t / MS_PER_DAY
  let ms := t % MS_PER_DAY
  let c := civilFromDays z
  ⟨c.1, c.2.1, c.2.2, ms⟩

/-- `startOfDay` (schedule.ts): strips the time component, returning local
midnight of the same civil day. -/
def startOfDay (d : JsDate) : JsDate :=
  { d with ms := 0 }

/-- `addDays` (schedule.ts): `setDate(getDate() + days)`.  In the fixed-offset
model this is exactly a shift of the instant by whole days. -/
def addDays (d : JsDate) (days : Int) : JsDate :=
  toDate (d.getTime + days * MS_PER_DAY)

/-- `addWeeks` (schedule.ts). -/
def addWeeks (d : JsDate) (weeks : Int) : JsDate :=
  addDays d (weeks * 7)

/-- `Date.prototype.setFullYear`: replace the year; JavaScript normalises an
out-of-range day (Feb 29 in a non-leap year) by rolling into the next month. -/
def setFullYear (d : JsDate) (y : Int) : JsDate :=
  if d.day ≤ daysInMonth y d.month then { d with year := y }
  else { d with year := y, month := d.month + 1, day := d.day - daysInMonth y d.month }

/-- `Date.prototype.setMonth`: replace the month keeping the day-of-month;
an out-of-range day rolls over into the following month. -/
def setMonth (d : JsDate) (m : Int) : JsDate :=
  if d.day ≤ daysInMonth d.year m then { d with month := m }
  else { d with month := m + 1, day := d.day - daysInMonth d.year m }

/-- `Date.prototype.setDate(0)`: move to the last day of the previous month. -/
def setDateZero (d : JsDate) : JsDate :=
  if d.month = 0 then { d with year := d.year - 1, month := 11, day := 31 }
  else { d with month := d.month - 1, day := daysInMonth d.year (d.month - 1) }

/-- `addMonths` (schedule.ts): adds months preserving the day of month where
possible; if the day rolled over, `setDate(0)` adjusts to the last day of the
target month. -/
def addMonths (d : JsDate) (months : Int) : JsDate :=
  let targetMonth := d.month + months
  let targetYear := d.year + targetMonth / 12
  let normalizedMonth := targetMonth % 12
  let r1 := setFullYear d targetYear
  let r2 := setMonth r1 normalizedMonth
  if r2.month ≠ normalizedMonth then setDateZero r2 else r2

/-! ## Schedule module (`schedule.ts`) -/

/-- Accrual frequency. -/
inductive Frequency where
  | weekly
  | biWeekly
  | monthly
  deriving Repr, DecidableEq

/-- The `while (true)` loop body of `calculateMonthsBetween`: repeatedly advance
the running date by one month (note: from the previous, possibly clamped, date,
not from the anchor; the source computes `anchorDay` but never uses it) and
count the advances that land at or before `endMs`.  The fuel passed by
`calculateMonthsBetween` exceeds the number of possible iterations, since each
advance moves the date forward by at least 28 days. -/
def monthsLoop (endMs : Int) : Nat → JsDate → Nat
  | 0, _ => 0
  | fuel + 1, current =>
    let next := addMonths current 1
    if endMs < next.getTime then 0
    else 1 + monthsLoop endMs fuel next

/-- `calculateMonthsBetween` (schedule.ts): the number of complete months
between two dates, counted by iterated one-month advances. -/
def calculateMonthsBetween (startDate endDate : JsDate) : Nat :=
  let start := startOfDay startDate
  let e := startOfDay endDate
  if e.getTime < start.getTime then 0
  else monthsLoop e.getTime (((e.getTime - start.getTime) / MS_PER_DAY).toNat / 28 + 1) start

/-- `calculatePeriodsBetween` (schedule.ts): number of complete periods between
two dates for a frequency. -/
def calculatePeriodsBetween (startDate endDate : JsDate) (frequency : Frequency) : Nat :=
  let start := (startOfDay startDate).getTime
  let e := (startOfDay endDate).getTime
  if e < start then 0
  else
    match frequency with
    | .weekly => ((e - start) / MS_PER_WEEK).toNat
    | .biWeekly => ((e - start) / (MS_PER_WEEK * 2)).toNat
    | .monthly => calculateMonthsBetween startDate endDate

/-- `generateAccrualDates` (schedule.ts): all accrual dates (epoch ms, local
midnight) between two timestamps for a frequency. -/
def generateAccrualDates (lastAccrualTimestamp currentTimestamp : Int)
    (frequency : Frequency) : List Int :=
  let lastAccrual := toDate lastAccrualTimestamp
  let now := toDate currentTimestamp
  let periods := calculatePeriodsBetween lastAccrual now frequency
  if periods = 0 then []
  else
    (List.range periods).map (fun i0 =>
      let i : Int := (i0 : Int) + 1
      let nextDate :=
        match frequency with
        | .weekly => addWeeks lastAccrual i
        | .biWeekly => addWeeks lastAccrual (i * 2)
        | .monthly => addMonths lastAccrual i
      (startOfDay nextDate).getTime)

/-! ## Rounding module (`round.ts`) -/

/-- `roundUp` (round.ts): `Math.ceil`.  Monetary values are `Rat`; the result
is the (integer-valued) ceiling, computed by the executable `Rat.ceil`
(`roundUp_eq_ceil` below identifies it with the mathematical ceiling). -/
def roundUp (amount : Rat) : Rat := ((Rat.ceil amount : Int) : Rat)

/-- `calculatePercentage` (round.ts): percentage of an amount, rounded up. -/
def calculatePercentage (amount percentage : Rat) : Rat :=
  roundUp (amount * percentage / 100)

/-- `calculateInterest` (round.ts). -/
def calculateInterest (balance interestRate : Rat) : Rat :=
  calculatePercentage balance interestRate

/-- `capAmount` (round.ts). -/
def capAmount (amount mx : Rat) : Rat :=
  min (roundUp amount) (roundUp mx)

/-! ## Domain data model (`domain/types.ts`) -/

inductive AccountType where
  | Savings
  | Goal
  deriving Repr, DecidableEq

inductive TransactionType where
  | Deposit
  | Withdraw
  deriving Repr, DecidableEq

/-- A ledger entry. -/
structure LedgerEntry where
  timestamp : Int
  type : TransactionType
  description : String
  value : Rat
  deriving Repr, DecidableEq

structure AllowanceConfig where
  enabled : Bool
  amount : Option Rat
  frequency : Option Frequency
  deriving Repr, DecidableEq

inductive InterestType where
  | Absolute
  | Percentage
  deriving Repr, DecidableEq

structure InterestConfig where
  enabled : Bool
  type : Option InterestType
  value : Option Rat
  frequency : Option Frequency
  deriving Repr, DecidableEq

structure GoalConfig where
  name : String
  cost : Rat
  achieved : Bool
  deriving Repr, DecidableEq

structure Account where
  name : String
  type : AccountType
  allowance : AllowanceConfig
  interest : InterestConfig
  goal : Option GoalConfig
  ledger : List LedgerEntry
  deriving Repr, DecidableEq

/-- `account.goal?.achieved` coerced to a boolean, as the source's truthiness
tests do. -/
def goalAchieved (a : Account) : Bool :=
  match a.goal with
  | some g => g.achieved
  | none => false

inductive AccrualType where
  | interest
  | allowance
  deriving Repr, DecidableEq

structure AccrualEntry where
  timestamp : Int
  accountName : String
  type : AccrualType
  amount : Rat
  description : String
  deriving Repr, DecidableEq

structure BalanceCalculationResult where
  newBalance : Rat
  newTimestamp : Int
  accruals : List AccrualEntry
  ledgerEntries : List LedgerEntry
  deriving Repr, DecidableEq

/-! ## Balance calculator (`BalanceCalculator.ts`) -/

def freqText : Option Frequency → String
  | some .weekly => "weekly"
  | some .biWeekly => "bi-weekly"
  | some .monthly => "monthly"
  | none => "undefined"

def ratText : Option Rat → String
  | some q => toString q
  | none => "undefined"

namespace BalanceCalculator

/-- `calculateCurrentBalance`: sum of the ledger values clamped to
`CONSTANTS.MIN_BALANCE = 0`. -/
def calculateCurrentBalance (account : Account) : Rat :=
  max 0 (account.ledger.foldl (fun sum entry => sum + entry.value) 0)

/-- `calculateInterestForPeriod`. -/
def calculateInterestForPeriod (balance : Rat) (config : InterestConfig) : Rat :=
  if !config.enabled then 0
  else
    match config.value with
    | none => 0
    | some v =>
      if config.type = some .Percentage then calculateInterest balance v
      else roundUp v

def formatInterestDescription (config : InterestConfig) : String :=
  if config.type = some .Percentage then
    "Interest " ++ ratText config.value ++ "% (" ++ freqText config.frequency ++ ")"
  else
    "Interest $" ++ ratText config.value ++ " (" ++ freqText config.frequency ++ ")"

def formatAllowanceDescription (config : AllowanceConfig) : String :=
  "Allowance $" ++ ratText config.amount ++ " (" ++ freqText config.frequency ++ ")"

/-- Helper type of `BalanceCalculator.ts`. -/
structure AccrualPeriod where
  timestamp : Int
  allowanceDue : Bool
  interestDue : Bool
  deriving Repr, DecidableEq

/-- `collectAccrualPeriods`: merge the allowance and interest due-date lists
into one timeline keyed by timestamp, then sort chronologically.  The source
builds a `Map<number, AccrualPeriod>` whose keys are the distinct timestamps
(flags set from membership in each date list) and sorts its values by
timestamp; `List.insertionSort` models the comparator sort. -/
def collectAccrualPeriods (account : Account) (startTimestamp endTimestamp : Int) :
    List AccrualPeriod :=
  let allowanceDates :=
    match account.allowance.enabled, account.allowance.frequency with
    | true, some f => generateAccrualDates startTimestamp endTimestamp f
    | _, _ => []
  let interestDates :=
    match account.interest.enabled, account.interest.frequency with
    | true, some f => generateAccrualDates startTimestamp endTimestamp f
    | _, _ => []
  let keys := (allowanceDates ++ interestDates).foldl
    (fun ks t => if ks.contains t then ks else ks ++ [t]) []
  let periods := keys.map (fun t =>
    { timestamp := t
      allowanceDue := allowanceDates.contains t
      interestDue := interestDates.contains t : AccrualPeriod })
  periods.insertionSort (fun a b => a.timestamp ≤ b.timestamp)

/-- Running state of the chronological walk in `calculate`. -/
structure CalcState where
  balance : Rat
  accruals : List AccrualEntry
  ledgerEntries : List LedgerEntry
  deriving Repr, DecidableEq

/-- One iteration of the period loop in `calculate`: interest is applied
first (if due), then allowance (if due). -/
def processPeriod (account : Account) (st : CalcState) (period : AccrualPeriod) :
    CalcState :=
  let st1 :=
    if period.interestDue && account.interest.enabled then
      let interestAmount := calculateInterestForPeriod st.balance account.interest
      if 0 < interestAmount then
        let accrual : AccrualEntry :=
          { timestamp := period.timestamp
            accountName := account.name
            type := .interest
            amount := interestAmount
            description := formatInterestDescription account.interest }
        { balance := st.balance + interestAmount
          accruals := st.accruals ++ [accrual]
          ledgerEntries := st.ledgerEntries ++
            [{ timestamp := period.timestamp, type := .Deposit,
               description := accrual.description, value := interestAmount }] }
      else st
    else st
  if period.allowanceDue && account.allowance.enabled then
    let allowanceAmount :=
      match account.allowance.amount with
      | some a => a
      | none => 0
    if 0 < allowanceAmount then
      let accrual : AccrualEntry :=
        { timestamp := period.timestamp
          accountName := account.name
          type := .allowance
          amount := allowanceAmount
          description := formatAllowanceDescription account.allowance }
      { balance := st1.balance + allowanceAmount
        accruals := st1.accruals ++ [accrual]
        ledgerEntries := st1.ledgerEntries ++
          [{ timestamp := period.timestamp, type := .Deposit,
             description := accrual.description, value := allowanceAmount }] }
    else st1
  else st1

/-- `BalanceCalculator.calculate`: the two early-exit states (achieved goal,
clock skew) followed by the chronological walk over the merged accrual
periods. -/
def calculate (account : Account) (lastCalculationTimestamp currentTimestamp : Int) :
    BalanceCalculationResult :=
  if goalAchieved account then
    { newBalance := calculateCurrentBalance account
      newTimestamp := lastCalculationTimestamp
      accruals := []
      ledgerEntries := [] }
  else if currentTimestamp < lastCalculationTimestamp then
    { newBalance := calculateCurrentBalance account
      newTimestamp := lastCalculationTimestamp
      accruals := []
      ledgerEntries := [] }
  else
    let periods := collectAccrualPeriods account lastCalculationTimestamp currentTimestamp
    let st := periods.foldl (processPeriod account)
      { balance := calculateCurrentBalance account, accruals := [], ledgerEntries := [] }
    { newBalance := st.balance
      newTimestamp := currentTimestamp
      accruals := st.accruals
      ledgerEntries := st.ledgerEntries }

end BalanceCalculator

/-! ## Aggregation helpers (`BalanceCalculator.ts`, exported functions) -/

/-- `calculateChildTotalBalance`: total over all non-achieved accounts, each
clamped to ≥ 0. -/
def calculateChildTotalBalance (accounts : List Account) : Rat :=
  (accounts.filter (fun account => !goalAchieved account)).foldl
    (fun total account =>
      total + max 0 (account.ledger.foldl (fun sum entry => sum + entry.value) 0)) 0

/-- `calculateAccountBalance`. -/
def calculateAccountBalance (account : Account) : Rat :=
  max 0 (account.ledger.foldl (fun sum entry => sum + entry.value) 0)

/-- `isGoalAchieved`: the balance-vs-cost query (distinct from the stored
`achieved` flag). -/
def isGoalAchieved (account : Account) : Bool :=
  match account.type, account.goal with
  | .Goal, some g => calculateAccountBalance account ≥ g.cost
  | _, _ => false

/-! ## Validation utilities (`domain/validation.ts`) -/

/-- `validatePositiveAmount`: requires a whole number (`Number.isInteger`)
that is strictly positive; returns the error message otherwise. -/
def validatePositiveAmount (amount : Rat) (fieldName : String) : Except String Unit :=
  if amount.den ≠ 1 then
    .error (fieldName ++ " must be a whole number (integer).")
  else if amount ≤ 0 then
    .error (fieldName ++ " must be greater than zero.")
  else
    .ok ()

/-- `validateDescription`: at most 100 characters; control characters in the
text are rejected by `validateText`. -/
def validateDescription (description : String) : Except String Unit :=
  if 100 < description.length then
    .error "Description must be at most 100 characters."
  else if description.toList.any (fun c =>
      (c.toNat < 9) || (13 < c.toNat && c.toNat < 32) || decide (c.toNat = 127)) then
    .error "Description contains invalid control characters."
  else
    .ok ()

/-! ## Ledger service (`LedgerService.ts`)

The persistence roundtrip (`AccountRepository.get` / `save`) is modelled by
passing the account value explicitly and returning the updated account; the
device clock (`Date.now()`) is an explicit `now` argument. -/

/-- The ledger sort comparator: ascending timestamp
(`(a, b) => a.timestamp - b.timestamp` in the source). -/
def byTimestamp (a b : LedgerEntry) : Prop := a.timestamp ≤ b.timestamp

instance : DecidableRel byTimestamp := fun a b => Int.decLe a.timestamp b.timestamp

instance : IsTotal LedgerEntry byTimestamp := ⟨fun a b => Int.le_total a.timestamp b.timestamp⟩

instance : IsTrans LedgerEntry byTimestamp := ⟨fun _ _ _ hab hbc => Int.le_trans hab hbc⟩

namespace LedgerService

/-- Result type of `withdraw`, extended with the updated account that the
source persists through the repository. -/
structure WithdrawResult where
  entry : LedgerEntry
  actualAmount : Rat
  requestedAmount : Rat
  wasCapped : Bool
  cappedMessage : Option String
  account : Account
  deriving Repr, DecidableEq

/-- `LedgerService.deposit`: validates, rejects achieved-goal accounts, then
pushes a `Deposit` entry timestamped `now` onto the ledger (no re-sort). -/
def deposit (account : Account) (now : Int) (amount : Rat) (description : String) :
    Except String (LedgerEntry × Account) :=
  match validatePositiveAmount amount "Deposit amount" with
  | .error e => .error e
  | .ok _ =>
  match validateDescription description with
  | .error e => .error e
  | .ok _ =>
  if goalAchieved account then
    .error "Cannot deposit to achieved goal account (read-only)"
  else
    let entry : LedgerEntry :=
      { timestamp := now, type := .Deposit, description := description, value := amount }
    .ok (entry, { account with ledger := account.ledger ++ [entry] })

/-- `LedgerService.withdraw`: validates, rejects achieved-goal accounts, caps
the amount to the available balance, then pushes a negative-valued `Withdraw`
entry timestamped `now` (no re-sort). -/
def withdraw (account : Account) (now : Int) (requestedAmount : Rat)
    (description : String) : Except String WithdrawResult :=
  match validatePositiveAmount requestedAmount "Withdraw amount" with
  | .error e => .error e
  | .ok _ =>
  match validateDescription description with
  | .error e => .error e
  | .ok _ =>
  if goalAchieved account then
    .error "Cannot withdraw from achieved goal account (read-only)"
  else
    let currentBalance := calculateAccountBalance account
    let actualAmount := min requestedAmount currentBalance
    let wasCapped := actualAmount < requestedAmount
    let entry : LedgerEntry :=
      { timestamp := now, type := .Withdraw, description := description,
        value := -actualAmount }
    .ok
      { entry := entry
        actualAmount := actualAmount
        requestedAmount := requestedAmount
        wasCapped := wasCapped
        cappedMessage :=
          if wasCapped then
            some ("Withdrawal amount adjusted to available balance ($" ++
              toString actualAmount ++ ")")
          else none
        account := { account with ledger := account.ledger ++ [entry] } }

/-- `LedgerService.appendEntries`: appends a batch of entries and re-sorts the
ledger by timestamp (`Array.prototype.sort` with the timestamp comparator,
modelled by `List.insertionSort`).  An empty batch returns immediately. -/
def appendEntries (account : Account) (entries : List LedgerEntry) : Account :=
  if entries = [] then account
  else
    { account with
      ledger := (account.ledger ++ entries).insertionSort byTimestamp }

end LedgerService

/-! ## Transfer service (`TransferService.ts`) -/

/-- Modelled from the spec: the key-value storage adapter
(`persistence/Repositories.ts`, whose implementation is not part of the
sources) is specified as `getAccount(childId, accountId) -> Account | not-found`
with names compared case-insensitively; it is modelled as an association list
from account name to account. -/
def Store : Type := List (String × Account)

/-- `String.prototype.toLowerCase`, written over the character list (the
character-wise map evaluates definitionally, unlike `String.toLower`). -/
def lowerStr (s : String) : String := String.mk (s.data.map Char.toLower)

/-- Modelled from the spec: `AccountRepository.get` — look an account up by
name (case-insensitive). -/
def storeGet (store : Store) (name : String) : Option Account :=
  (List.find? (fun p => lowerStr p.1 == lowerStr name) store).map (fun p => p.2)

/-- Modelled from the spec: `AccountRepository.save` — replace the stored
account of that name. -/
def storeSave (store : Store) (name : String) (account : Account) : Store :=
  List.map (fun p => if lowerStr p.1 == lowerStr name then (p.1, account) else p) store

namespace TransferService

structure TransferResult where
  success : Bool
  fromAccount : String
  toAccount : String
  requestedAmount : Rat
  actualAmount : Rat
  wasCapped : Bool
  withdrawEntry : LedgerEntry
  depositEntry : LedgerEntry
  toastMessage : Option String
  deriving Repr, DecidableEq

/-- `TransferService.transfer`.  The store is threaded explicitly and is also
returned in the error case: a JavaScript `throw` leaves any repository writes
that already happened in place, so the pair `(result, store)` captures exactly
which entries were created before a failure. -/
def transfer (store : Store) (fromAccountName toAccountName : String) (now : Int)
    (requestedAmount : Rat) : Except String TransferResult × Store :=
  match validatePositiveAmount requestedAmount "Transfer amount" with
  | .error e => (.error e, store)
  | .ok _ =>
  match storeGet store fromAccountName, storeGet store toAccountName with
  | none, _ => (.error ("Source account not found: " ++ fromAccountName), store)
  | some _, none => (.error ("Destination account not found: " ++ toAccountName), store)
  | some fromAccount, some toAccount =>
  if lowerStr fromAccountName == lowerStr toAccountName then
    (.error "Cannot transfer to the same account", store)
  else if goalAchieved fromAccount then
    (.error "Cannot transfer from achieved goal account (read-only)", store)
  else if goalAchieved toAccount then
    (.error "Cannot transfer to achieved goal account (read-only)", store)
  else
    let availableBalance := calculateAccountBalance fromAccount
    if availableBalance = 0 then
      (.error "Insufficient funds for transfer", store)
    else
      let actualAmount := min requestedAmount availableBalance
      let wasCapped := actualAmount < requestedAmount
      match LedgerService.withdraw fromAccount now actualAmount
        ("Transfer to " ++ toAccount.name) with
      | .error e => (.error e, store)
      | .ok withdrawResult =>
        let store1 := storeSave store fromAccountName withdrawResult.account
        match LedgerService.deposit toAccount now actualAmount
          ("Transfer from " ++ fromAccount.name) with
        | .error e => (.error e, store1)
        | .ok depositPair =>
          let store2 := storeSave store1 toAccountName depositPair.2
          (.ok
            { success := true
              fromAccount := fromAccountName
              toAccount := toAccountName
              requestedAmount := requestedAmount
              actualAmount := actualAmount
              wasCapped := wasCapped
              withdrawEntry := withdrawResult.entry
              depositEntry := depositPair.1
              toastMessage :=
                if wasCapped then
                  some ("Transfer amount adjusted to available balance ($" ++
                    toString actualAmount ++ ")")
                else none }, store2)

end TransferService

/-! ## Concrete fixtures used by witnesses and counterexamples -/

/-- An achieved-goal account. -/
def sampleAchieved : Account :=
  { name := "Bike"
    type := .Goal
    allowance := { enabled := false, amount := none, frequency := none }
    interest := { enabled := false, type := none, value := none, frequency := none }
    goal := some { name := "Bike", cost := 200, achieved := true }
    ledger := [{ timestamp := 1000, type := .Deposit, description := "Initial", value := 250 }] }

/-- A savings account with weekly allowance 10 and monthly 5% interest. -/
def sampleSavings : Account :=
  { name := "Savings"
    type := .Savings
    allowance := { enabled := true, amount := some 10, frequency := some .weekly }
    interest := { enabled := true, type := some .Percentage, value := some 5,
                  frequency := some .monthly }
    goal := none
    ledger := [{ timestamp := 0, type := .Deposit, description := "Initial", value := 100 }] }

/-- The ledger entry generated for an accrual (`calculate` pushes exactly
this shape). -/
def accrualLedgerEntry (a : AccrualEntry) : LedgerEntry :=
  { timestamp := a.timestamp, type := .Deposit, description := a.description,
    value := a.amount }

/-- An account whose allowance config carries the fractional amount 10.5. -/
def fractionalAllowance : Account :=
  { name := "Frac"
    type := .Savings
    allowance := { enabled := true, amount := some (21/2), frequency := some .weekly }
    interest := { enabled := false, type := none, value := none, frequency := none }
    goal := none
    ledger := [] }

/-- The allowance accrual `calculate` emits for `fractionalAllowance` over the
week 2025-02-01 to 2025-02-08. -/
def fracAccrual : AccrualEntry :=
  { timestamp := 1738972800000
    accountName := "Frac"
    type := .allowance
    amount := 21/2
    description := BalanceCalculator.formatAllowanceDescription fractionalAllowance.allowance }

/-- An account whose only ledger entry is timestamped in the future
(timestamp 100, while the device clock will read 50). -/
def futureLedger : Account :=
  { name := "Stale"
    type := .Savings
    allowance := { enabled := false, amount := none, frequency := none }
    interest := { enabled := false, type := none, value := none, frequency := none }
    goal := none
    ledger := [{ timestamp := 100, type := .Deposit, description := "Future", value := 5 }] }

/-! ## Calendar lemmas -/

/-- Validity of the civil fields of a date: the month is in range and the day
exists in that month of that year. -/
def ValidYMD (d : JsDate) : Prop :=
  0 ≤ d.month ∧ d.month ≤ 11 ∧ 1 ≤ d.day ∧ d.day ≤ daysInMonth d.year d.month

theorem daysInMonth_ge (y m : Int) : 28 ≤ daysInMonth y m := by
  simp only [daysInMonth]
  omega

theorem daysInMonth_le (y m : Int) : daysInMonth y m ≤ 31 := by
  simp only [daysInMonth]
  omega

theorem daysInYear_ge (y : Int) : 365 ≤ daysInYear y := by
  simp only [daysInYear]
  omega

/-- The length of a year is 337 days plus that year's February. -/
theorem daysInYear_eq_feb (y : Int) : daysInYear y = 337 + daysInMonth y 1 := by
  simp only [daysInYear, daysInMonth]
  split_ifs <;> omega

theorem findYearFwd_valid : ∀ (fuel : Nat) (y days : Int), 0 ≤ days →
    days < 365 * (fuel : Int) →
    0 ≤ (findYearFwd fuel y days).2 ∧
      (findYearFwd fuel y days).2 < daysInYear (findYearFwd fuel y days).1
  | 0, y, days, h0, h1 => by
    exfalso
    simp only [Nat.cast_zero, mul_zero] at h1
    omega
  | fuel + 1, y, days, h0, h1 => by
    have h365 : 365 ≤ daysInYear y := daysInYear_ge y
    rw [findYearFwd]
    split
    · exact ⟨h0, by assumption⟩
    · have hge : daysInYear y ≤ days := by omega
      refine findYearFwd_valid fuel (y + 1) (days - daysInYear y) (by omega) ?_
      have hcast : ((fuel + 1 : Nat) : Int) = (fuel : Int) + 1 := by push_cast; ring
      rw [hcast] at h1
      omega

theorem findYearBwd_valid : ∀ (fuel : Nat) (y days : Int), days < 0 →
    0 ≤ days + 365 * (fuel : Int) →
    0 ≤ (findYearBwd fuel y days).2 ∧
      (findYearBwd fuel y days).2 < daysInYear (findYearBwd fuel y days).1
  | 0, y, days, h0, h1 => by
    exfalso
    simp only [Nat.cast_zero, mul_zero] at h1
    omega
  | fuel + 1, y, days, h0, h1 => by
    have h365 : 365 ≤ daysInYear (y - 1) := daysInYear_ge (y - 1)
    rw [findYearBwd]
    split
    · next hc =>
      refine ⟨hc, ?_⟩
      show days + daysInYear (y - 1) < daysInYear (y - 1)
      omega
    · refine findYearBwd_valid fuel (y - 1) (days + daysInYear (y - 1)) (by omega) ?_
      have hcast : ((fuel + 1 : Nat) : Int) = (fuel : Int) + 1 := by push_cast; ring
      rw [hcast] at h1
      omega

theorem findMonth_valid (y doy : Int) (h0 : 0 ≤ doy) (h1 : doy < daysInYear y) :
    0 ≤ (findMonth y doy).1 ∧ (findMonth y doy).1 ≤ 11 ∧
      0 ≤ (findMonth y doy).2 ∧ (findMonth y doy).2 + 1 ≤ daysInMonth y (findMonth y doy).1 := by
  rw [daysInYear_eq_feb] at h1
  have hf1 := daysInMonth_ge y 1
  have hf2 := daysInMonth_le y 1
  unfold findMonth
  by_cases c1 : doy < 31
  · rw [if_pos c1]
    refine ⟨by norm_num, by norm_num, h0, ?_⟩
    show doy + 1 ≤ 31
    omega
  rw [if_neg c1]
  by_cases c2 : doy < 31 + daysInMonth y 1
  · rw [if_pos c2]
    refine ⟨by norm_num, by norm_num, ?_, ?_⟩
    · show 0 ≤ doy - 31
      omega
    · show doy - 31 + 1 ≤ daysInMonth y 1
      omega
  rw [if_neg c2]
  by_cases c3 : doy < 62 + daysInMonth y 1
  · rw [if_pos c3]
    refine ⟨by norm_num, by norm_num, ?_, ?_⟩
    · show 0 ≤ doy - (31 + daysInMonth y 1)
      omega
    · show doy - (31 + daysInMonth y 1) + 1 ≤ 31
      omega
  rw [if_neg c3]
  by_cases c4 : doy < 92 + daysInMonth y 1
  · rw [if_pos c4]
    refine ⟨by norm_num, by norm_num, ?_, ?_⟩
    · show 0 ≤ doy - (62 + daysInMonth y 1)
      omega
    · show doy - (62 + daysInMonth y 1) + 1 ≤ 30
      omega
  rw [if_neg c4]
  by_cases c5 : doy < 123 + daysInMonth y 1
  · rw [if_pos c5]
    refine ⟨by norm_num, by norm_num, ?_, ?_⟩
    · show 0 ≤ doy - (92 + daysInMonth y 1)
      omega
    · show doy - (92 + daysInMonth y 1) + 1 ≤ 31
      omega
  rw [if_neg c5]
  by_cases c6 : doy < 153 + daysInMonth y 1
  · rw [if_pos c6]
    refine ⟨by norm_num, by norm_num, ?_, ?_⟩
    · show 0 ≤ doy - (123 + daysInMonth y 1)
      omega
    · show doy - (123 + daysInMonth y 1) + 1 ≤ 30
      omega
  rw [if_neg c6]
  by_cases c7 : doy < 184 + daysInMonth y 1
  · rw [if_pos c7]
    refine ⟨by norm_num, by norm_num, ?_, ?_⟩
    · show 0 ≤ doy - (153 + daysInMonth y 1)
      omega
    · show doy - (153 + daysInMonth y 1) + 1 ≤ 31
      omega
  rw [if_neg c7]
  by_cases c8 : doy < 215 + daysInMonth y 1
  · rw [if_pos c8]
    refine ⟨by norm_num, by norm_num, ?_, ?_⟩
    · show 0 ≤ doy - (184 + daysInMonth y 1)
      omega
    · show doy - (184 + daysInMonth y 1) + 1 ≤ 31
      omega
  rw [if_neg c8]
  by_cases c9 : doy < 245 + daysInMonth y 1
  · rw [if_pos c9]
    refine ⟨by norm_num, by norm_num, ?_, ?_⟩
    · show 0 ≤ doy - (215 + daysInMonth y 1)
      omega
    · show doy - (215 + daysInMonth y 1) + 1 ≤ 30
      omega
  rw [if_neg c9]
  by_cases c10 : doy < 276 + daysInMonth y 1
  · rw [if_pos c10]
    refine ⟨by norm_num, by norm_num, ?_, ?_⟩
    · show 0 ≤ doy - (245 + daysInMonth y 1)
      omega
    · show doy - (245 + daysInMonth y 1) + 1 ≤ 31
      omega
  rw [if_neg c10]
  by_cases c11 : doy < 306 + daysInMonth y 1
  · rw [if_pos c11]
    refine ⟨by norm_num, by norm_num, ?_, ?_⟩
    · show 0 ≤ doy - (276 + daysInMonth y 1)
      omega
    · show doy - (276 + daysInMonth y 1) + 1 ≤ 30
      omega
  rw [if_neg c11]
  refine ⟨by norm_num, by norm_num, ?_, ?_⟩
  · show 0 ≤ doy - (306 + daysInMonth y 1)
    omega
  · show doy - (306 + daysInMonth y 1) + 1 ≤ 31
    omega

/-- The fields of `civilFromDays` form a valid (month, day) pair. -/
theorem civilFromDays_valid (z : Int) :
    0 ≤ (civilFromDays z).2.1 ∧ (civilFromDays z).2.1 ≤ 11 ∧
      1 ≤ (civilFromDays z).2.2 ∧
      (civilFromDays z).2.2 ≤ daysInMonth (civilFromDays z).1 (civilFromDays z).2.1 := by
  unfold civilFromDays
  by_cases hzpos : 0 ≤ z
  · have hlt : z < 365 * ((z.toNat / 365 + 1 : Nat) : Int) := by
      push_cast
      omega
    have hy := findYearFwd_valid (z.toNat / 365 + 1) 1970 z hzpos hlt
    have hm := findMonth_valid (findYearFwd (z.toNat / 365 + 1) 1970 z).1
      (findYearFwd (z.toNat / 365 + 1) 1970 z).2 hy.1 hy.2
    simp only [hzpos, if_true]
    exact ⟨hm.1, hm.2.1, by omega, by omega⟩
  · have hneg : z < 0 := by omega
    have hge : 0 ≤ z + 365 * (((-z).toNat / 365 + 1 : Nat) : Int) := by
      push_cast
      omega
    have hy := findYearBwd_valid ((-z).toNat / 365 + 1) 1970 z hneg hge
    have hm := findMonth_valid (findYearBwd ((-z).toNat / 365 + 1) 1970 z).1
      (findYearBwd ((-z).toNat / 365 + 1) 1970 z).2 hy.1 hy.2
    simp only [hzpos, if_false]
    exact ⟨hm.1, hm.2.1, by omega, by omega⟩

theorem toDate_valid (t : Int) : ValidYMD (toDate t) := by
  have h := civilFromDays_valid (t / MS_PER_DAY)
  unfold toDate ValidYMD
  exact h

theorem startOfDay_valid (d : JsDate) (h : ValidYMD d) : ValidYMD (startOfDay d) := h

/-- `civilDays` is affine in the day argument. -/
theorem civilDays_day (y m d : Int) : civilDays y m d = civilDays y m 1 + d - 1 := by
  simp only [civilDays]
  omega

/-- Stepping to the first of the next month advances `civilDays` by the length
of the current month (months 0..10 of the same year). -/
theorem civilDays_month_succ (y m : Int) (h0 : 0 ≤ m) (h1 : m ≤ 10) :
    civilDays y (m + 1) 1 = civilDays y m 1 + daysInMonth y m := by
  simp only [civilDays, daysInMonth, isLeapYear, Bool.or_eq_true, Bool.and_eq_true,
    beq_iff_eq, bne_iff_ne]
  omega

/-- Stepping from December to January of the next year advances `civilDays`
by 31. -/
theorem civilDays_year_succ (y : Int) :
    civilDays (y + 1) 0 1 = civilDays y 11 1 + 31 := by
  simp only [civilDays]
  omega

/-- `addMonths d 1` on a valid date, when the day fits in the next month:
same year (months 0..10), next month, same day. -/
theorem addMonths_one_std (y m day ms : Int) (h0 : 0 ≤ m) (hm : m ≤ 10)
    (h3 : day ≤ daysInMonth y m) (h4 : day ≤ daysInMonth y (m + 1)) :
    addMonths ⟨y, m, day, ms⟩ 1 = ⟨y, m + 1, day, ms⟩ := by
  have e12 : (m + 1) / 12 = 0 := by omega
  have e12b : (m + 1) % 12 = m + 1 := by omega
  simp only [addMonths, setFullYear, setMonth, setDateZero, e12, e12b, add_zero,
    h3, h4, if_true, ne_eq]
  simp

/-- `addMonths d 1` on a valid date, when the day overflows the next month:
clamped to the last day of the next month. -/
theorem addMonths_one_clamp (y m day ms : Int) (h0 : 0 ≤ m) (hm : m ≤ 10)
    (h3 : day ≤ daysInMonth y m) (h4 : daysInMonth y (m + 1) < day) :
    addMonths ⟨y, m, day, ms⟩ 1 = ⟨y, m + 1, daysInMonth y (m + 1), ms⟩ := by
  have e12 : (m + 1) / 12 = 0 := by omega
  have e12b : (m + 1) % 12 = m + 1 := by omega
  have h4' : ¬(day ≤ daysInMonth y (m + 1)) := by omega
  have hne : ¬(m + 1 + 1 = m + 1) := by omega
  have hnz : ¬(m + 1 + 1 = 0) := by omega
  simp only [addMonths, setFullYear, setMonth, setDateZero, e12, e12b, add_zero,
    h3, h4', if_true, if_false, ite_false, ne_eq, hne, hnz, not_false_eq_true,
    add_sub_cancel_right]

/-- `addMonths d 1` on a valid December date: January 1st of the next year,
same day (December and January both have 31 days, so no clamping). -/
theorem addMonths_one_dec (y day ms : Int) (h3 : day ≤ 31) :
    addMonths ⟨y, 11, day, ms⟩ 1 = ⟨y + 1, 0, day, ms⟩ := by
  have e12 : ((11 : Int) + 1) / 12 = 1 := by norm_num
  have e12b : ((11 : Int) + 1) % 12 = 0 := by norm_num
  have h3' : day ≤ daysInMonth (y + 1) 11 := by
    have : daysInMonth (y + 1) 11 = 31 := rfl
    omega
  have h3'' : day ≤ daysInMonth (y + 1) 0 := by
    have : daysInMonth (y + 1) 0 = 31 := rfl
    omega
  simp only [addMonths, setFullYear, setMonth, setDateZero, e12, e12b,
    h3', h3'', if_true, ne_eq]
  simp

/-- Advancing a valid date by one month strictly increases its instant. -/
theorem getTime_addMonths_one : ∀ d : JsDate, ValidYMD d →
    d.getTime < (addMonths d 1).getTime := by
  rintro ⟨y, m, day, ms⟩ ⟨h0, h1, h2, h3⟩
  dsimp only at h0 h1 h2 h3
  have hge_m := daysInMonth_ge y m
  rcases (by omega : m ≤ 10 ∨ m = 11) with hm | hm
  · have hge_m1 := daysInMonth_ge y (m + 1)
    have l1 := civilDays_day y m day
    have l2 := civilDays_day y (m + 1) day
    have l3 := civilDays_day y (m + 1) (daysInMonth y (m + 1))
    have l4 := civilDays_month_succ y m h0 hm
    by_cases h4 : day ≤ daysInMonth y (m + 1)
    · rw [addMonths_one_std y m day ms h0 hm h3 h4]
      simp only [JsDate.getTime, MS_PER_DAY]
      omega
    · rw [addMonths_one_clamp y m day ms h0 hm h3 (by omega)]
      simp only [JsDate.getTime, MS_PER_DAY]
      omega
  · subst hm
    have hd11 : daysInMonth y 11 = 31 := rfl
    have l1 := civilDays_day y 11 day
    have l2 := civilDays_day (y + 1) 0 day
    have l3 := civilDays_year_succ y
    rw [addMonths_one_dec y day ms (by omega)]
    simp only [JsDate.getTime, MS_PER_DAY]
    omega

/-- On a valid start date, one iteration of the month loop with equal start
and end instants terminates immediately with zero months. -/
theorem monthsLoop_zero (d : JsDate) (h : ValidYMD d) (fuel : Nat) :
    monthsLoop d.getTime (fuel + 1) d = 0 := by
  rw [monthsLoop]
  rw [if_pos (getTime_addMonths_one d h)]

/-! ## Schedule lemmas -/

theorem monthsLoop_zero' (d : JsDate) (h : ValidYMD d) :
    monthsLoop d.getTime 1 d = 0 := by
  have := monthsLoop_zero d h 0
  simpa using this

/-- Zero elapsed time yields zero monthly periods. -/
theorem calculateMonthsBetween_self (d : JsDate) (h : ValidYMD d) :
    calculateMonthsBetween d d = 0 := by
  unfold calculateMonthsBetween
  rw [if_neg (lt_irrefl _)]
  have hv : ValidYMD (startOfDay d) := startOfDay_valid d h
  have hfuel : ((((startOfDay d).getTime - (startOfDay d).getTime) / MS_PER_DAY).toNat / 28 + 1)
      = 1 := by
    simp [MS_PER_DAY]
  rw [hfuel]
  exact monthsLoop_zero' (startOfDay d) hv

/-- Zero elapsed time yields zero periods for every frequency. -/
theorem calculatePeriodsBetween_self (d : JsDate) (h : ValidYMD d) (f : Frequency) :
    calculatePeriodsBetween d d f = 0 := by
  unfold calculatePeriodsBetween
  rw [if_neg (lt_irrefl _)]
  cases f
  · simp
  · simp
  · exact calculateMonthsBetween_self d h

/-- Zero elapsed time yields no accrual dates. -/
theorem generateAccrualDates_self (t : Int) (f : Frequency) :
    generateAccrualDates t t f = [] := by
  simp only [generateAccrualDates]
  rw [calculatePeriodsBetween_self (toDate t) (toDate_valid t) f]
  simp

/-- Zero elapsed time yields an empty merged accrual timeline. -/
theorem collectAccrualPeriods_self (account : Account) (t : Int) :
    BalanceCalculator.collectAccrualPeriods account t t = [] := by
  unfold BalanceCalculator.collectAccrualPeriods
  rcases hA : account.allowance.enabled <;> rcases hF : account.allowance.frequency <;>
    rcases hI : account.interest.enabled <;> rcases hG : account.interest.frequency <;>
    simp [hA, hF, hI, hG, generateAccrualDates_self]

/-- With equal last-calculation and current instants the calculator emits
nothing. -/
theorem calculate_same_instant (account : Account) (t : Int) :
    (BalanceCalculator.calculate account t t).accruals = [] ∧
      (BalanceCalculator.calculate account t t).ledgerEntries = [] := by
  unfold BalanceCalculator.calculate
  by_cases hg : goalAchieved account
  · simp [hg]
  · simp only [hg, Bool.false_eq_true, if_false, lt_irrefl, ite_false,
      collectAccrualPeriods_self, List.foldl_nil]
    exact ⟨trivial, trivial⟩

/-! ## Claims C5, C6, C7 -/

/-- C5: if the output of `BalanceCalculator.calculate account t0 t1` is
persisted (its ledger entries appended via `LedgerService.appendEntries`) and
the calculator is invoked again on the updated account with
`lastCalculationTimestamp = t1` and `currentTimestamp = t1`, the second call
yields zero accruals and zero ledger entries. -/
theorem claim_C5_idempotence_no_elapsed (account : Account) (t0 t1 : Int) :
    (BalanceCalculator.calculate
        (LedgerService.appendEntries account
          (BalanceCalculator.calculate account t0 t1).ledgerEntries) t1 t1).accruals = [] ∧
      (BalanceCalculator.calculate
        (LedgerService.appendEntries account
          (BalanceCalculator.calculate account t0 t1).ledgerEntries) t1 t1).ledgerEntries = [] :=
  calculate_same_instant _ t1

/-- C6: an achieved-goal account is excluded from accrual (the calculator
returns the current balance, the unchanged timestamp, and no accruals or
entries, for any pair of timestamps), and contributes zero to
`calculateChildTotalBalance` regardless of its ledger. -/
theorem claim_C6_achieved_goal_exclusion :
    (∀ (account : Account) (last cur : Int), goalAchieved account = true →
      BalanceCalculator.calculate account last cur =
        { newBalance := BalanceCalculator.calculateCurrentBalance account
          newTimestamp := last
          accruals := []
          ledgerEntries := [] }) ∧
    (∀ (pre post : List Account) (a : Account), goalAchieved a = true →
      calculateChildTotalBalance (pre ++ a :: post) = calculateChildTotalBalance (pre ++ post)) := by
  constructor
  · intro account last cur h
    unfold BalanceCalculator.calculate
    simp [h]
  · intro pre post a h
    unfold calculateChildTotalBalance
    simp [h]

/-- C6 witness: the achieved-goal fixture, with elapsed time from 5 to 999999. -/
theorem claim_C6_achieved_goal_exclusion_witness :
    goalAchieved sampleAchieved = true ∧
      BalanceCalculator.calculate sampleAchieved 5 999999 =
        { newBalance := BalanceCalculator.calculateCurrentBalance sampleAchieved
          newTimestamp := 5
          accruals := []
          ledgerEntries := [] } ∧
      calculateChildTotalBalance ([] ++ sampleAchieved :: []) =
        calculateChildTotalBalance ([] ++ []) :=
  ⟨by decide,
   claim_C6_achieved_goal_exclusion.1 sampleAchieved 5 999999 (by decide),
   claim_C6_achieved_goal_exclusion.2 [] [] sampleAchieved (by decide)⟩

/-- C7: under clock skew (`currentTimestamp < lastCalculationTimestamp`) the
calculator is a no-op: it returns the balance read from the unchanged ledger,
the unchanged timestamp, and no accruals or entries. -/
theorem claim_C7_clock_skew_freeze (account : Account) (last cur : Int) (h : cur < last) :
    BalanceCalculator.calculate account last cur =
      { newBalance := BalanceCalculator.calculateCurrentBalance account
        newTimestamp := last
        accruals := []
        ledgerEntries := [] } := by
  unfold BalanceCalculator.calculate
  by_cases hg : goalAchieved account <;> simp [hg, h]

/-- C7 witness: the savings fixture with the clock 7 ms behind the stored
checkpoint. -/
theorem claim_C7_clock_skew_freeze_witness :
    (3 : Int) < 10 ∧
      BalanceCalculator.calculate sampleSavings 10 3 =
        { newBalance := BalanceCalculator.calculateCurrentBalance sampleSavings
          newTimestamp := 10
          accruals := []
          ledgerEntries := [] } :=
  ⟨by decide, claim_C7_clock_skew_freeze sampleSavings 10 3 (by decide)⟩

/-! ## Rounding lemmas -/

/-- `roundUp` is the identity on whole-number amounts. -/
theorem roundUp_int_val (q : Rat) (h : q.den = 1) : roundUp q = q := by
  unfold roundUp Rat.ceil
  rw [if_pos h]
  exact Rat.coe_int_num_of_den_eq_one h

/-- `roundUp` computes the mathematical ceiling. -/
theorem roundUp_eq_ceil (q : Rat) : roundUp q = ((⌈q⌉ : Int) : Rat) := by
  by_cases h : q.den = 1
  · rw [roundUp_int_val q h]
    have hq : ((q.num : ℚ)) = q := Rat.coe_int_num_of_den_eq_one h
    rw [← hq, Int.ceil_intCast]
  · unfold roundUp Rat.ceil
    rw [if_neg h]
    have hfl : q.num / (q.den : Int) = ⌊q⌋ := Rat.floor_def.symm
    rw [hfl]
    have h1 : ((⌊q⌋ : ℚ)) ≠ q := by
      intro hcon
      exact h (by rw [← hcon]; exact Rat.den_intCast _)
    have h2 : (⌊q⌋ : ℚ) < q := lt_of_le_of_ne (Int.floor_le q) h1
    have h3 : q < (⌊q⌋ : ℚ) + 1 := Int.lt_floor_add_one q
    have hc : ⌈q⌉ = ⌊q⌋ + 1 := by
      rw [Int.ceil_eq_iff]
      constructor
      · push_cast
        linarith
      · push_cast
        linarith
    rw [hc]

/-! ## Claims C1, C2, C3 -/

/-- C1 (failing evaluation): for `lastInstant` = 2023-01-31 and
`currentInstant` = 2023-03-29 (both local midnight), `generateAccrualDates`
with monthly frequency emits the anchored dates Feb 28 and Mar 31 2023, yet
`calculateMonthsBetween` counted 2 periods by drifting (Feb 28 → Mar 28), so
the second emitted instant Mar 31 lies strictly after the current instant's
local midnight — a future-dated due instant. -/
theorem claim_C1_future_due_instant :
    generateAccrualDates 1675123200000 1680048000000 .monthly =
      [1677542400000, 1680220800000] ∧
      (startOfDay (toDate 1680048000000)).getTime = 1680048000000 ∧
      (1680048000000 : Int) < 1680220800000 := by
  refine ⟨by decide, by decide, by decide⟩

/-- C2 (failing evaluation): for `lastInstant` = 2024-01-31 and
`currentInstant` = 2024-03-30, the code counts 2 monthly periods
(drifting Jan 31 → Feb 29 → Mar 29), although only one anchored one-month
advance from the anchor lands at or before the current local midnight
(`addMonths` of 1 month gives Feb 29 ≤ Mar 30, of 2 months gives
Mar 31 > Mar 30). -/
theorem claim_C2_monthly_count_drift :
    calculatePeriodsBetween (toDate 1706659200000) (toDate 1711756800000) .monthly = 2 ∧
      (startOfDay (addMonths (toDate 1706659200000) 1)).getTime ≤
        (startOfDay (toDate 1711756800000)).getTime ∧
      (startOfDay (toDate 1711756800000)).getTime <
        (startOfDay (addMonths (toDate 1706659200000) 2)).getTime := by
  refine ⟨by decide, by decide, by decide⟩

/-- C3: at a timeline point where both interest and allowance are due, the
interest amount is computed from (and applied to) the running balance before
the allowance is added: the emitted interest accrual carries
`roundUp (b * v / 100)` for the incoming balance `b`, and the final balance
is `b + interest + allowance`.  (`BalanceCalculator.calculate` walks its
timeline with exactly this `processPeriod` step.) -/
theorem claim_C3_interest_before_allowance
    (account : Account) (b : Rat) (A : List AccrualEntry) (E : List LedgerEntry)
    (ts : Int) (v w : Rat)
    (hIe : account.interest.enabled = true)
    (hIt : account.interest.type = some .Percentage)
    (hIv : account.interest.value = some v)
    (hAe : account.allowance.enabled = true)
    (hAa : account.allowance.amount = some w)
    (hw : 0 < w)
    (hi : 0 < roundUp (b * v / 100)) :
    BalanceCalculator.processPeriod account
        { balance := b, accruals := A, ledgerEntries := E }
        { timestamp := ts, allowanceDue := true, interestDue := true } =
      { balance := b + roundUp (b * v / 100) + w
        accruals := A ++
          [{ timestamp := ts, accountName := account.name, type := .interest,
             amount := roundUp (b * v / 100),
             description := BalanceCalculator.formatInterestDescription account.interest },
           { timestamp := ts, accountName := account.name, type := .allowance,
             amount := w,
             description := BalanceCalculator.formatAllowanceDescription account.allowance }]
        ledgerEntries := E ++
          [{ timestamp := ts, type := .Deposit,
             description := BalanceCalculator.formatInterestDescription account.interest,
             value := roundUp (b * v / 100) },
           { timestamp := ts, type := .Deposit,
             description := BalanceCalculator.formatAllowanceDescription account.allowance,
             value := w }] } := by
  unfold BalanceCalculator.processPeriod BalanceCalculator.calculateInterestForPeriod
  simp [hIe, hIt, hIv, hAe, hAa, hw, hi, calculateInterest, calculatePercentage]

/-- C3 witness: the spec scenario — balance 100, weekly allowance 10, monthly
5% percentage interest both due at one instant: interest 5 computed from 100,
balance before allowance 105, final balance 115, amounts in order
[interest 5, allowance 10]. -/
theorem claim_C3_interest_before_allowance_witness :
    roundUp ((100 : Rat) * 5 / 100) = 5 ∧
      (100 : Rat) + roundUp ((100 : Rat) * 5 / 100) = 105 ∧
      (BalanceCalculator.processPeriod sampleSavings
        { balance := 100, accruals := [], ledgerEntries := [] }
        { timestamp := 1000, allowanceDue := true, interestDue := true }).balance = 115 ∧
      ((BalanceCalculator.processPeriod sampleSavings
        { balance := 100, accruals := [], ledgerEntries := [] }
        { timestamp := 1000, allowanceDue := true, interestDue := true }).accruals.map
          (fun a => a.amount)) = [5, 10] := by
  have hru : roundUp ((100 : Rat) * 5 / 100) = 5 := by
    rw [roundUp_eq_ceil]
    norm_num
  have hru5 : roundUp (5 : Rat) = 5 := roundUp_int_val 5 (by norm_num)
  have h := claim_C3_interest_before_allowance sampleSavings 100 [] [] 1000 5 10
    rfl rfl rfl rfl rfl (by norm_num) (by rw [hru]; norm_num)
  refine ⟨hru, by rw [hru]; norm_num, ?_, ?_⟩
  · rw [h]
    dsimp only
    norm_num [hru, hru5]
  · rw [h]
    dsimp only
    simp [hru, hru5]

/-! ## Claim C4 -/

/-- One `processPeriod` step keeps ledger entries in lockstep with accruals. -/
theorem processPeriod_entries (account : Account) (st : BalanceCalculator.CalcState)
    (p : BalanceCalculator.AccrualPeriod)
    (h : st.ledgerEntries = st.accruals.map accrualLedgerEntry) :
    (BalanceCalculator.processPeriod account st p).ledgerEntries =
      (BalanceCalculator.processPeriod account st p).accruals.map accrualLedgerEntry := by
  unfold BalanceCalculator.processPeriod
  by_cases c1 : (p.interestDue && account.interest.enabled) = true <;>
    by_cases c2 : 0 < BalanceCalculator.calculateInterestForPeriod st.balance account.interest <;>
    by_cases c3 : (p.allowanceDue && account.allowance.enabled) = true <;>
    by_cases c4 : 0 < (match account.allowance.amount with | some a => a | none => 0) <;>
    simp [c1, c2, c3, c4, h, accrualLedgerEntry]

/-- Folded over any period list, ledger entries stay in lockstep with
accruals. -/
theorem foldl_processPeriod_entries (account : Account) :
    ∀ (l : List BalanceCalculator.AccrualPeriod) (st : BalanceCalculator.CalcState),
      st.ledgerEntries = st.accruals.map accrualLedgerEntry →
      (l.foldl (BalanceCalculator.processPeriod account) st).ledgerEntries =
        (l.foldl (BalanceCalculator.processPeriod account) st).accruals.map accrualLedgerEntry := by
  intro l
  induction l with
  | nil => intro st h; simpa using h
  | cons p rest ih =>
    intro st h
    rw [List.foldl_cons]
    exact ih _ (processPeriod_entries account st p h)

/-- An allowance-typed accrual present after one `processPeriod` step was
either already present, or is the step's own allowance accrual, which carries
exactly the configured (positive) allowance amount. -/
theorem processPeriod_allowance_mem (account : Account)
    (st : BalanceCalculator.CalcState) (p : BalanceCalculator.AccrualPeriod)
    (x : AccrualEntry) (hty : x.type = .allowance)
    (hx : x ∈ (BalanceCalculator.processPeriod account st p).accruals) :
    x ∈ st.accruals ∨ (account.allowance.amount = some x.amount ∧ 0 < x.amount) := by
  revert hx
  unfold BalanceCalculator.processPeriod
  rcases hAm : account.allowance.amount with _ | w <;>
    by_cases c1 : (p.interestDue && account.interest.enabled) = true <;>
    by_cases c2 : 0 < BalanceCalculator.calculateInterestForPeriod st.balance account.interest <;>
    by_cases c3 : (p.allowanceDue && account.allowance.enabled) = true <;>
    [skip; skip; skip; skip; skip; skip; skip; skip;
     by_cases c4 : (0 : Rat) < w; by_cases c4 : (0 : Rat) < w;
     by_cases c4 : (0 : Rat) < w; by_cases c4 : (0 : Rat) < w;
     by_cases c4 : (0 : Rat) < w; by_cases c4 : (0 : Rat) < w;
     by_cases c4 : (0 : Rat) < w; by_cases c4 : (0 : Rat) < w] <;>
    (try simp only [hAm, c1, c2, c3, if_true, if_false, ite_true, ite_false,
      Bool.false_eq_true, lt_self_iff_false]) <;>
    (try simp only [c4, if_true, if_false, ite_true, ite_false]) <;>
    intro hx <;>
    (try simp only [List.mem_append, List.mem_singleton] at hx) <;>
    first
    | exact Or.inl hx
    | (rcases hx with hx | rfl
       · exact Or.inl hx
       · exact absurd hty (by exact fun hc => AccrualType.noConfusion hc))
    | (rcases hx with hx | rfl
       · exact Or.inl hx
       · exact Or.inr ⟨rfl, c4⟩)
    | (rcases hx with (hx | rfl) | rfl
       · exact Or.inl hx
       · exact absurd hty (by exact fun hc => AccrualType.noConfusion hc)
       · exact Or.inr ⟨rfl, c4⟩)

/-- Folded version of `processPeriod_allowance_mem`. -/
theorem foldl_processPeriod_allowance_mem (account : Account) :
    ∀ (l : List BalanceCalculator.AccrualPeriod) (st : BalanceCalculator.CalcState)
      (x : AccrualEntry), x.type = .allowance →
      x ∈ (l.foldl (BalanceCalculator.processPeriod account) st).accruals →
      x ∈ st.accruals ∨ (account.allowance.amount = some x.amount ∧ 0 < x.amount) := by
  intro l
  induction l with
  | nil =>
    intro st x _ hx
    exact Or.inl (by simpa using hx)
  | cons p rest ih =>
    intro st x hty hx
    rw [List.foldl_cons] at hx
    rcases ih _ x hty hx with hmem | hfact
    · exact processPeriod_allowance_mem account st p x hty hmem
    · exact Or.inr hfact

/-- The accrual timeline and entry list emitted for the fractional-allowance
account over one elapsed weekly period (2025-02-01 to 2025-02-08). -/
theorem calc_frac_eval :
    (BalanceCalculator.calculate fractionalAllowance 1738368000000
        1738972800000).accruals = [fracAccrual] ∧
      (BalanceCalculator.calculate fractionalAllowance 1738368000000
        1738972800000).ledgerEntries = [accrualLedgerEntry fracAccrual] := by
  have hsched : BalanceCalculator.collectAccrualPeriods fractionalAllowance
      1738368000000 1738972800000 =
      [{ timestamp := 1738972800000, allowanceDue := true, interestDue := false }] := by
    decide
  have hpos : (0 : Rat) < 21/2 := by norm_num
  constructor <;>
  · unfold BalanceCalculator.calculate
    rw [if_neg (by decide), if_neg (by decide), hsched]
    simp only [List.foldl_cons, List.foldl_nil]
    unfold BalanceCalculator.processPeriod
    simp [fractionalAllowance, fracAccrual, accrualLedgerEntry, hpos]

/-- C4, counterexample to the claim as stated: for an enabled allowance of
10.5 over one elapsed weekly period, the calculator stores the raw amount
10.5 in the ledger entry, not `roundUp(10.5) = 11` — a fractional currency
amount reaches the ledger. -/
theorem claim_C4_counterexample :
    ((BalanceCalculator.calculate fractionalAllowance 1738368000000
        1738972800000).ledgerEntries.map (fun e => e.value)) = [21/2] ∧
      roundUp (21/2 : Rat) = 11 ∧
      ¬((21/2 : Rat) = 11) := by
  refine ⟨?_, ?_, by norm_num⟩
  · rw [calc_frac_eval.2]
    simp [accrualLedgerEntry, fracAccrual]
  · rw [roundUp_eq_ceil]
    have hc : ⌈(21/2 : Rat)⌉ = 11 := by
      rw [Int.ceil_eq_iff]
      constructor <;> norm_num
    rw [hc]
    norm_num

/-- C4, amended: every ledger entry emitted by `calculate` mirrors an accrual
(`accrualLedgerEntry`), every allowance accrual carries exactly the configured
`allowance.amount` — unrounded — and is emitted only when that amount is
present and positive; `roundUp` is the identity precisely on whole amounts,
so entry values equal `roundUp(allowance.amount)` only for whole configured
amounts. -/
theorem claim_C4_allowance_amount_unrounded :
    (∀ (account : Account) (last cur : Int),
      (BalanceCalculator.calculate account last cur).ledgerEntries =
        (BalanceCalculator.calculate account last cur).accruals.map accrualLedgerEntry) ∧
    (∀ (account : Account) (last cur : Int) (a : AccrualEntry),
      a ∈ (BalanceCalculator.calculate account last cur).accruals →
      a.type = .allowance →
      account.allowance.amount = some a.amount ∧ 0 < a.amount) ∧
    (∀ q : Rat, q.den = 1 → roundUp q = q) := by
  refine ⟨?_, ?_, fun q h => roundUp_int_val q h⟩
  · intro account last cur
    unfold BalanceCalculator.calculate
    split_ifs
    · rfl
    · rfl
    · exact foldl_processPeriod_entries account _ _ rfl
  · intro account last cur a ha hty
    unfold BalanceCalculator.calculate at ha
    split_ifs at ha
    · simp at ha
    · simp at ha
    · rcases foldl_processPeriod_allowance_mem account _ _ a hty ha with hmem | hfact
      · simp at hmem
      · exact hfact

/-- C4 witness: for the fractional-allowance account the emitted accrual is
exactly the configured amount 10.5, positive; and `roundUp` is the identity
on the whole amount 3. -/
theorem claim_C4_allowance_amount_unrounded_witness :
    (fracAccrual ∈ (BalanceCalculator.calculate fractionalAllowance 1738368000000
        1738972800000).accruals) ∧
      fracAccrual.type = .allowance ∧
      (fractionalAllowance.allowance.amount = some fracAccrual.amount ∧
        0 < fracAccrual.amount) ∧
      ((3 : Rat).den = 1 ∧ roundUp (3 : Rat) = 3) :=
  ⟨by simp [calc_frac_eval.1], rfl,
   claim_C4_allowance_amount_unrounded.2.1 fractionalAllowance 1738368000000
     1738972800000 fracAccrual (by simp [calc_frac_eval.1]) rfl,
   ⟨by norm_num, claim_C4_allowance_amount_unrounded.2.2 3 (by norm_num)⟩⟩

/-! ## Claim C8 -/

/-- C8, counterexample to the claim as stated: `deposit` pushes the new entry
without re-sorting, so depositing at clock time 50 onto a (sorted) ledger
whose entry is timestamped 100 leaves the stored ledger out of ascending
order. -/
theorem claim_C8_counterexample :
    LedgerService.deposit futureLedger 50 1 "Gift" =
      .ok ({ timestamp := 50, type := .Deposit, description := "Gift", value := 1 },
        { futureLedger with ledger :=
          [{ timestamp := 100, type := .Deposit, description := "Future", value := 5 },
           { timestamp := 50, type := .Deposit, description := "Gift", value := 1 }] }) ∧
      List.Sorted byTimestamp futureLedger.ledger ∧
      ¬ List.Sorted byTimestamp
        [({ timestamp := 100, type := .Deposit, description := "Future", value := 5 } :
            LedgerEntry),
         { timestamp := 50, type := .Deposit, description := "Gift", value := 1 }] := by
  refine ⟨by rfl, by decide, by decide⟩

/-- C8, amended: `appendEntries` always leaves the stored ledger sorted
ascending by timestamp (it re-sorts); the manual `deposit` and `withdraw`
operations preserve a sorted ledger provided the device clock `now` is at or
after every stored entry's timestamp (they append without re-sorting). -/
theorem claim_C8_ledger_sorted :
    (∀ (account : Account) (entries : List LedgerEntry),
      List.Sorted byTimestamp account.ledger →
      List.Sorted byTimestamp (LedgerService.appendEntries account entries).ledger) ∧
    (∀ (account : Account) (now : Int) (amount : Rat) (descr : String)
      (e : LedgerEntry) (acct' : Account),
      List.Sorted byTimestamp account.ledger →
      (∀ x ∈ account.ledger, x.timestamp ≤ now) →
      LedgerService.deposit account now amount descr = .ok (e, acct') →
      List.Sorted byTimestamp acct'.ledger) ∧
    (∀ (account : Account) (now : Int) (req : Rat) (descr : String)
      (r : LedgerService.WithdrawResult),
      List.Sorted byTimestamp account.ledger →
      (∀ x ∈ account.ledger, x.timestamp ≤ now) →
      LedgerService.withdraw account now req descr = .ok r →
      List.Sorted byTimestamp r.account.ledger) := by
  refine ⟨?_, ?_, ?_⟩
  · intro account entries h
    unfold LedgerService.appendEntries
    split_ifs
    · exact h
    · exact List.sorted_insertionSort byTimestamp _
  · intro account now amount descr e acct' hs hle hdep
    unfold LedgerService.deposit at hdep
    rcases hval : validatePositiveAmount amount "Deposit amount" with ev | uv <;>
      rw [hval] at hdep
    · exact absurd hdep (by simp)
    rcases hd2 : validateDescription descr with ev2 | uv2 <;> rw [hd2] at hdep
    · exact absurd hdep (by simp)
    by_cases hg : goalAchieved account
    · rw [if_pos hg] at hdep
      exact absurd hdep (by simp)
    rw [if_neg hg] at hdep
    simp only [Except.ok.injEq, Prod.mk.injEq] at hdep
    rcases hdep with ⟨-, hacct⟩
    subst hacct
    rw [List.Sorted, List.pairwise_append]
    refine ⟨hs, List.pairwise_singleton _ _, ?_⟩
    intro a ha b hb
    rcases List.mem_singleton.mp hb with rfl
    exact hle a ha
  · intro account now req descr r hs hle hdep
    unfold LedgerService.withdraw at hdep
    rcases hval : validatePositiveAmount req "Withdraw amount" with ev | uv <;>
      rw [hval] at hdep
    · exact absurd hdep (by simp)
    rcases hd2 : validateDescription descr with ev2 | uv2 <;> rw [hd2] at hdep
    · exact absurd hdep (by simp)
    by_cases hg : goalAchieved account
    · rw [if_pos hg] at hdep
      exact absurd hdep (by simp)
    rw [if_neg hg] at hdep
    simp only [Except.ok.injEq] at hdep
    subst hdep
    rw [List.Sorted, List.pairwise_append]
    refine ⟨hs, List.pairwise_singleton _ _, ?_⟩
    intro a ha b hb
    rcases List.mem_singleton.mp hb with rfl
    exact hle a ha

/-- C8 witness: re-sorting a batch appended onto the sorted savings fixture;
a deposit and a withdraw at clock time 500 onto ledgers whose entries are all
at or before 500. -/
theorem claim_C8_ledger_sorted_witness :
    List.Sorted byTimestamp
      (LedgerService.appendEntries sampleSavings
        [{ timestamp := 700, type := .Deposit, description := "Accrual", value := 10 }]).ledger ∧
      List.Sorted byTimestamp
        ({ sampleSavings with ledger := sampleSavings.ledger ++
          [{ timestamp := 500, type := .Deposit, description := "Gift", value := 7 }] } :
            Account).ledger ∧
      List.Sorted byTimestamp
        ({ fractionalAllowance with ledger := fractionalAllowance.ledger ++
          [{ timestamp := 500, type := .Withdraw, description := "Toy", value := -0 }] } :
            Account).ledger :=
  ⟨claim_C8_ledger_sorted.1 sampleSavings
      [{ timestamp := 700, type := .Deposit, description := "Accrual", value := 10 }]
      (by decide),
   claim_C8_ledger_sorted.2.1 sampleSavings 500 7 "Gift"
      { timestamp := 500, type := .Deposit, description := "Gift", value := 7 }
      ({ sampleSavings with ledger := sampleSavings.ledger ++
        [{ timestamp := 500, type := .Deposit, description := "Gift", value := 7 }] })
      (by decide) (by decide) (by rfl),
   claim_C8_ledger_sorted.2.2 fractionalAllowance 500 5 "Toy"
      { entry := { timestamp := 500, type := .Withdraw, description := "Toy", value := -0 }
        actualAmount := 0
        requestedAmount := 5
        wasCapped := true
        cappedMessage := some ("Withdrawal amount adjusted to available balance ($" ++
          toString (0 : Rat) ++ ")")
        account := { fractionalAllowance with ledger := fractionalAllowance.ledger ++
          [{ timestamp := 500, type := .Withdraw, description := "Toy", value := -0 }] } }
      (by decide) (by decide) (by rfl)⟩

/-! ## C9: capped withdrawal -/

/-- Folding the ledger sum from any seed is the seed plus the sum of the
entry values. -/
theorem foldl_value_sum (l : List LedgerEntry) (c : Rat) :
    l.foldl (fun sum entry => sum + entry.value) c
      = c + (l.map (fun entry => entry.value)).sum := by
  induction l generalizing c with
  | nil => simp
  | cons e rest ih => simp [ih, add_assoc]

/-- C9 counterexample: the claim quantifies over every over-balance positive
request, but `withdraw` first runs `validatePositiveAmount`, which rejects any
non-integer amount: the request 150.5 against available balance 100 is
positive and exceeds the balance, yet no entry is appended — the call returns
the whole-number validation error instead of a capped withdrawal of 100. -/
theorem claim_C9_counterexample :
    LedgerService.withdraw sampleSavings 999 (301 / 2) "Toy" =
      .error "Withdraw amount must be a whole number (integer)." ∧
    (0 : Rat) < 301 / 2 ∧
    calculateAccountBalance sampleSavings < 301 / 2 ∧
    goalAchieved sampleSavings = false := by
  have hden : ((301 : Rat) / 2).den = 2 := by norm_num
  have hb : calculateAccountBalance sampleSavings = 100 := by
    unfold calculateAccountBalance sampleSavings
    simp only [List.foldl_cons, List.foldl_nil, zero_add]
    rw [max_eq_right (by norm_num)]
  refine ⟨?_, by norm_num, ?_, by decide⟩
  · simp only [LedgerService.withdraw, validatePositiveAmount, hden]
    norm_num
    decide
  · rw [hb]
    norm_num

/-- **C9** (corrected: the request must also pass `validatePositiveAmount` —
a whole number — and `validateDescription`, which the claim's "every withdraw
request" omits). For a whole-number positive request exceeding the available
balance on a non-read-only account, `withdraw` appends a single `Withdraw`
entry valued minus the available balance, the resulting balance is 0, and the
result carries `wasCapped = true` with a capped-notice message. -/
theorem claim_C9_capped_withdrawal (account : Account) (now : Int) (req : Rat)
    (descr : String) (hden : req.den = 1) (hpos : 0 < req)
    (hdesc : validateDescription descr = .ok ())
    (hgoal : goalAchieved account = false)
    (hover : calculateAccountBalance account < req) :
    LedgerService.withdraw account now req descr =
      .ok { entry :=
              { timestamp := now, type := .Withdraw, description := descr,
                value := -(calculateAccountBalance account) }
            actualAmount := calculateAccountBalance account
            requestedAmount := req
            wasCapped := true
            cappedMessage := some ("Withdrawal amount adjusted to available balance ($" ++
              toString (calculateAccountBalance account) ++ ")")
            account := { account with ledger := account.ledger ++
              [{ timestamp := now, type := .Withdraw, description := descr,
                 value := -(calculateAccountBalance account) }] } } ∧
    calculateAccountBalance { account with ledger := account.ledger ++
      [{ timestamp := now, type := .Withdraw, description := descr,
         value := -(calculateAccountBalance account) }] } = 0 := by
  have hval : validatePositiveAmount req "Withdraw amount" = .ok () := by
    unfold validatePositiveAmount
    rw [if_neg (by simp [hden]), if_neg (not_le.mpr hpos)]
  have hmin : min req (calculateAccountBalance account) = calculateAccountBalance account :=
    min_eq_right hover.le
  constructor
  · simp only [LedgerService.withdraw, hval, hdesc, hgoal, Bool.false_eq_true, if_false,
      hmin]
    simp [hover]
  · unfold calculateAccountBalance
    simp only [foldl_value_sum, List.map_append, List.sum_append, List.map_cons,
      List.map_nil, List.sum_cons, List.sum_nil, zero_add, add_zero]
    by_cases h : (0 : Rat) ≤ (account.ledger.map (fun entry => entry.value)).sum
    · rw [max_eq_right h]
      simp
    · push_neg at h
      rw [max_eq_left h.le]
      simpa using max_eq_left h.le

/-- C9 witness: the spec's own scenario — request 150 against balance 100
withdraws exactly 100 and zeroes the balance. -/
theorem claim_C9_capped_withdrawal_witness :
    calculateAccountBalance sampleSavings = 100 ∧
    (LedgerService.withdraw sampleSavings 999 150 "Fair" =
      .ok { entry :=
              { timestamp := 999, type := .Withdraw, description := "Fair",
                value := -(calculateAccountBalance sampleSavings) }
            actualAmount := calculateAccountBalance sampleSavings
            requestedAmount := 150
            wasCapped := true
            cappedMessage := some ("Withdrawal amount adjusted to available balance ($" ++
              toString (calculateAccountBalance sampleSavings) ++ ")")
            account := { sampleSavings with ledger := sampleSavings.ledger ++
              [{ timestamp := 999, type := .Withdraw, description := "Fair",
                 value := -(calculateAccountBalance sampleSavings) }] } } ∧
    calculateAccountBalance { sampleSavings with ledger := sampleSavings.ledger ++
      [{ timestamp := 999, type := .Withdraw, description := "Fair",
         value := -(calculateAccountBalance sampleSavings) }] } = 0) := by
  have hb : calculateAccountBalance sampleSavings = 100 := by
    unfold calculateAccountBalance sampleSavings
    simp only [List.foldl_cons, List.foldl_nil, zero_add]
    rw [max_eq_right (by norm_num)]
  exact ⟨hb, claim_C9_capped_withdrawal sampleSavings 999 150 "Fair" (by rfl) (by decide)
    (by decide) (by decide) (by rw [hb]; norm_num)⟩

/-! ## C10: zero-balance transfer -/

/-- An account with an empty ledger: its available balance is 0. -/
def emptySource : Account :=
  { name := "Empty"
    type := .Savings
    allowance := { enabled := false, amount := none, frequency := none }
    interest := { enabled := false, type := none, value := none, frequency := none }
    goal := none
    ledger := [] }

/-- A destination account for transfers. -/
def destAccount : Account :=
  { name := "Dest"
    type := .Savings
    allowance := { enabled := false, amount := none, frequency := none }
    interest := { enabled := false, type := none, value := none, frequency := none }
    goal := none
    ledger := [{ timestamp := 10, type := .Deposit, description := "Initial", value := 20 }] }

/-- A two-account store holding `emptySource` and `destAccount`. -/
def sampleStore : Store := [("Empty", emptySource), ("Dest", destAccount)]

/-- C10 counterexample: the claim quantifies over every positive requested
amount, but `transfer` runs `validatePositiveAmount` before the balance check:
the fractional request 0.5 from a zero-balance source yields the whole-number
validation error, not the insufficient-funds error (no entries are created
either way, but the thrown error is not the claimed one). -/
theorem claim_C10_counterexample :
    TransferService.transfer sampleStore "Empty" "Dest" 777 (1 / 2) =
      (.error "Transfer amount must be a whole number (integer).", sampleStore) ∧
    calculateAccountBalance emptySource = 0 ∧
    (0 : Rat) < 1 / 2 ∧
    "Transfer amount must be a whole number (integer)." ≠
      "Insufficient funds for transfer" := by
  have hden : ((1 : Rat) / 2).den = 2 := by norm_num
  refine ⟨?_, by decide, by norm_num, by decide⟩
  simp only [TransferService.transfer, validatePositiveAmount, hden]
  norm_num
  decide

/-- **C10** (corrected: the requested amount must also be a whole number —
`validatePositiveAmount` runs before the balance check and throws a different
error for fractional amounts). For a whole-number positive request between
distinct existing non-achieved accounts whose source balance is exactly 0,
`transfer` throws the insufficient-funds error and returns the store
unchanged — no withdraw or deposit entry is created on either account. -/
theorem claim_C10_insufficient_funds (store : Store) (fromName toName : String)
    (now : Int) (req : Rat) (fa ta : Account)
    (hden : req.den = 1) (hpos : 0 < req)
    (hfrom : storeGet store fromName = some fa)
    (hto : storeGet store toName = some ta)
    (hne : (lowerStr fromName == lowerStr toName) = false)
    (hga : goalAchieved fa = false)
    (hgb : goalAchieved ta = false)
    (hbal : calculateAccountBalance fa = 0) :
    TransferService.transfer store fromName toName now req =
      (.error "Insufficient funds for transfer", store) := by
  have hval : validatePositiveAmount req "Transfer amount" = .ok () := by
    unfold validatePositiveAmount
    rw [if_neg (by simp [hden]), if_neg (not_le.mpr hpos)]
  simp only [TransferService.transfer, hval, hfrom, hto, hne, hga, hgb, hbal,
    Bool.false_eq_true, if_false]
  rw [if_pos trivial]

/-- C10 witness: a whole-number request of 3 from the zero-balance `Empty`
account to `Dest` fails with the insufficient-funds error and leaves the
store unchanged. -/
theorem claim_C10_insufficient_funds_witness :
    TransferService.transfer sampleStore "Empty" "Dest" 777 3 =
      (.error "Insufficient funds for transfer", sampleStore) :=
  claim_C10_insufficient_funds sampleStore "Empty" "Dest" 777 3 emptySource destAccount
    (by rfl) (by decide) (by decide) (by decide) (by decide) (by decide) (by decide)
    (by decide)

end KidsBank
